import Mathlib

/-!
Verification of the cricbuzz scraping pipeline (src/sports_records.py and
src/squads.py) against its natural-language specification.

Python strings are embedded as `List Char`; each Python string primitive the
scraper uses (strip, upper, lower, title, split, replace, find, endswith,
startswith, the `in` substring test) is given an executable Lean counterpart
with the same semantics on the ASCII inputs the scraper handles.  HTML pages
are embedded as records carrying exactly what the scraper's selectors read
from them (a selector that matched nothing is `none`); the HTTP layer is a
page-environment argument, so every function of the source becomes a pure
Lean function of its page inputs.  SQLite tables are embedded as lists of
row records together with the autoincrement sequence where the schema has
one; `INSERT OR IGNORE` suppresses exactly the uniqueness conflicts the
declared schema can raise.
-/

/-- Python strings, embedded as their character lists. -/
abbrev Str := List Char

/-- The whitespace characters of Python's `str.strip` / the regex class `\s`
(ASCII range, which is all the scraper meets). -/
def isWS (c : Char) : Bool :=
  c = ' ' || c = '\t' || c = '\n' || c = '\r' || c = Char.ofNat 11 || c = Char.ofNat 12

/-- Python `str.lower` (ASCII). -/
def pyLower (s : Str) : Str := s.map Char.toLower

/-- Python `str.upper` (ASCII). -/
def pyUpper (s : Str) : Str := s.map Char.toUpper

/-- Python `str.strip()`: drop whitespace from both ends. -/
def pyStrip (s : Str) : Str := (s.dropWhile isWS).rdropWhile isWS

/-- One pass of `re.sub(r"\s+", " ", text)`: the flag records whether the
previous character was inside a whitespace run (such a run has already
emitted its single `' '`). -/
def collapseAux : Bool → Str → Str
  | _, [] => []
  | inRun, c :: cs =>
    if isWS c then
      if inRun then collapseAux true cs else ' ' :: collapseAux true cs
    else c :: collapseAux false cs

/-- `re.sub(r"\s+", " ", text)`: every maximal whitespace run becomes one space. -/
def collapseWS (s : Str) : Str := collapseAux false s

/-- `SportsMatchScraper.clean_text` (src/sports_records.py:57-63): falsy input
(empty or absent text) yields `""`; otherwise collapse whitespace runs, strip,
and keep the first 100 characters. -/
def clean_text (s : Str) : Str :=
  if s.isEmpty then [] else (pyStrip (collapseWS s)).take 100

example : clean_text "  a \n\t b  ".data = "a b".data := by decide
example : clean_text (List.replicate 120 'x') = List.replicate 100 'x' := by decide

/-- Python `str.split(sep)` for a one-character separator: keeps empty pieces,
`"".split("-") = [""]`. -/
def splitOnChar (sep : Char) : Str → List Str
  | [] => [[]]
  | c :: cs =>
    match splitOnChar sep cs with
    | [] => [[]]
    | cur :: rest => if c = sep then [] :: cur :: rest else (c :: cur) :: rest

example : splitOnChar '-' "ind-vs--nz".data = ["ind".data, "vs".data, [], "nz".data] := by decide
example : splitOnChar '-' [] = [[]] := by decide

/-- Worker for `str.split` with a multi-character separator: scan left to
right, cut at each non-overlapping occurrence of `sep`.  The fuel argument
(always at least the scanned string's length plus one) only makes the
recursion structural; each step consumes at least one character. -/
def splitOnSepAux (sep : Str) : Nat → Str → Str → List Str
  | 0, s, acc => [acc.reverse ++ s]
  | _ + 1, [], acc => [acc.reverse]
  | fuel + 1, c :: cs, acc =>
    if sep.isPrefixOf (c :: cs) then
      acc.reverse :: splitOnSepAux sep fuel (cs.drop (sep.length - 1)) []
    else
      splitOnSepAux sep fuel cs (c :: acc)

/-- Python `str.split(sep)` for a non-empty separator (the scraper only splits
on `" vs "` and `","`). -/
def pySplit (sep : Str) (s : Str) : List Str :=
  match sep with
  | [] => [s]
  | _ :: _ => splitOnSepAux sep (s.length + 1) s []

example : pySplit " vs ".data "India vs New Zealand".data = ["India".data, "New Zealand".data] := by decide
example : pySplit ",".data "a, b,".data = ["a".data, " b".data, []] := by decide

/-- Worker for `str.replace`: replace each non-overlapping occurrence of
`pat`, scanning left to right, with the same structural fuel as the split
worker. -/
def pyReplaceAux (pat rep : Str) : Nat → Str → Str
  | 0, s => s
  | _ + 1, [] => []
  | fuel + 1, c :: cs =>
    if pat.isPrefixOf (c :: cs) then
      rep ++ pyReplaceAux pat rep fuel (cs.drop (pat.length - 1))
    else
      c :: pyReplaceAux pat rep fuel cs

/-- Python `str.replace(pat, rep)` for a non-empty pattern (the scraper only
replaces fixed non-empty boilerplate phrases). -/
def pyReplace (pat rep s : Str) : Str :=
  match pat with
  | [] => s
  | _ :: _ => pyReplaceAux pat rep (s.length + 1) s

example : pyReplace " - Scorecard".data [] "IND vs NZ - Scorecard".data = "IND vs NZ".data := by decide

/-- Worker for `str.find`, counting the index of the first occurrence. -/
def pyFindAux (sub : Str) : Str → Nat → Option Nat
  | [], i => if sub.isEmpty then some i else none
  | c :: cs, i => if sub.isPrefixOf (c :: cs) then some i else pyFindAux sub cs (i + 1)

/-- Python `str.find(sub)` as an `Option`: the index of the first occurrence,
`none` where Python returns `-1`. -/
def pyFind (sub s : Str) : Option Nat := pyFindAux sub s 0

example : pyFind "vs".data "ind vs nz vs".data = some 4 := by decide
example : pyFind "zz".data "ind".data = none := by decide

/-- Worker for `str.title`: a letter is uppercased after a non-letter and
lowercased after a letter (ASCII). -/
def pyTitleAux : Bool → Str → Str
  | _, [] => []
  | prevAlpha, c :: cs =>
    if c.isAlpha then
      (if prevAlpha then c.toLower else c.toUpper) :: pyTitleAux true cs
    else c :: pyTitleAux false cs

/-- Python `str.title()` (ASCII). -/
def pyTitle (s : Str) : Str := pyTitleAux false s

example : pyTitle "XYZ".data = "Xyz".data := by decide
example : pyTitle "T20I".data = "T20I".data := by decide

/-- Python truthiness of an optional string: `None` and `""` are falsy,
anything else truthy (`if not details[...]`, `x or y`). -/
def pyTruthy : Option Str → Bool
  | none => false
  | some s => !s.isEmpty

/-- Python `dict.get(key, default)` over a literal dict (keys are distinct,
so association-list lookup is exact). -/
def dictGet (m : List (Str × Str)) (k d : Str) : Str :=
  match m with
  | [] => d
  | (key, v) :: rest => if key = k then v else dictGet rest k d

/-- Python `str(n)` for a non-negative int. -/
def natToStr (n : Nat) : Str := (Nat.repr n).data

example : natToStr 116441 = "116441".data := by decide

/-- Python's substring test `sub in s`. -/
def strContains (sub s : Str) : Bool := (pyFind sub s).isSome

example : strContains "won".data "india won by 5 wickets".data = true := by decide
example : strContains "zz".data "india".data = false := by decide

/-- `SportsMatchScraper.TEAM_MAP` (src/sports_records.py:35-40): recognized
international team abbreviations. -/
def TEAM_MAP : List (Str × Str) := [
  ("IND".data, "India".data), ("NZ".data, "New Zealand".data),
  ("AUS".data, "Australia".data), ("ENG".data, "England".data),
  ("RSA".data, "South Africa".data), ("SA".data, "South Africa".data),
  ("PAK".data, "Pakistan".data), ("WI".data, "West Indies".data),
  ("SL".data, "Sri Lanka".data), ("BAN".data, "Bangladesh".data),
  ("AFG".data, "Afghanistan".data), ("ZIM".data, "Zimbabwe".data),
  ("IRE".data, "Ireland".data), ("ITA".data, "Italy".data),
  ("SCO".data, "Scotland".data), ("NED".data, "Netherlands".data)]

/-- `SportsMatchScraper.extract_teams_from_slug` (src/sports_records.py:65-72):
upper-case the slug, split on `-`, look for the first `VS` token; each
neighbouring token resolves through `TEAM_MAP` with a title-cased fallback, a
missing neighbour or a missing `VS` yields `Unknown` sides. -/
def extract_teams_from_slug (slug : Str) : Str :=
  let parts := splitOnChar '-' (pyUpper slug)
  match parts.findIdx? (fun p => p == "VS".data) with
  | some idx =>
    let t1 := if 0 < idx then
        let tok := parts.getD (idx - 1) []
        dictGet TEAM_MAP tok (pyTitle tok)
      else "Unknown".data
    let t2 := if idx < parts.length - 1 then
        let tok := parts.getD (idx + 1) []
        dictGet TEAM_MAP tok (pyTitle tok)
      else "Unknown".data
    t1 ++ " vs ".data ++ t2
  | none => "Unknown vs Unknown".data

example : extract_teams_from_slug "ind-vs-nz-t20i".data = "India vs New Zealand".data := by decide

/-- What the scraper's selectors read off a fetched live-score page
(src/sports_records.py:79-106): the text of the first `a[href*="/venues/"]`
anchor, the text of the first `h1`, and the text of the
`#sticky-mcomplete div div` results banner — each `none` when the selector
matched nothing. -/
structure LivePage where
  venueText : Option Str
  h1Text : Option Str
  winnerText : Option Str
deriving DecidableEq

/-- What the scraper's selectors read off a fetched match-facts page
(src/sports_records.py:108-140): the text of the first venue/ground anchor,
the parent text of the first string matching `won by|Match tied|No result`,
and the per-row texts of the officials info rows. -/
structure FactsPage where
  venueText : Option Str
  resultText : Option Str
  infoRows : List Str
deriving DecidableEq

/-- The `details` dict built by `get_match_details`
(src/sports_records.py:74-142). -/
structure Details where
  winner : Option Str
  venue : Option Str
  match_name : Option Str
  format : Str
  umpire_1 : Option Str
  umpire_2 : Option Str
  tv_umpire : Option Str
  match_referee : Option Str
deriving DecidableEq

/-- `details` as initialized at src/sports_records.py:76 (the officials keys
are only added on the facts page, but they are read back with `.get`, so an
absent key and a `None` value are indistinguishable). -/
def initDetails : Details :=
  { winner := none, venue := none, match_name := none, format := "Unknown".data,
    umpire_1 := none, umpire_2 := none, tv_umpire := none, match_referee := none }

/-- The three boilerplate `str.replace` calls of src/sports_records.py:92-93,
in source order. -/
def stripNameSuffixes (mn : Str) : Str :=
  pyReplace " - Scorecard".data []
    (pyReplace " Live Score".data []
      (pyReplace " - Live Cricket Score".data [] mn))

/-- Format detection from the match name (src/sports_records.py:96-99). -/
def detectFormat (mn : Str) : Str :=
  if strContains "T20I".data (pyUpper mn) then "T20I".data
  else if strContains "ODI".data (pyUpper mn) then "ODI".data
  else if strContains "TEST".data (pyUpper mn) then "Test".data
  else "Unknown".data

/-- The venue block of the live page (src/sports_records.py:83-85). -/
def liveVenueStep (lp : LivePage) (d : Details) : Details :=
  match lp.venueText with
  | some t => { d with venue := some (clean_text t) }
  | none => d

/-- The match-name/format block of the live page (src/sports_records.py:87-99). -/
def liveNameStep (lp : LivePage) (d : Details) : Details :=
  match lp.h1Text with
  | some h =>
    let mn := stripNameSuffixes (pyStrip h)
    { d with match_name := some (pyStrip mn), format := detectFormat mn }
  | none => d

/-- The winner block of the live page (src/sports_records.py:101-106): the
banner text is accepted only when it case-insensitively contains one of the
team parts. -/
def liveWinnerStep (team_parts : List Str) (lp : LivePage) (d : Details) : Details :=
  match lp.winnerText with
  | some w =>
    let txt := clean_text w
    if team_parts.any (fun t => strContains t (pyLower txt)) then
      { d with winner := some txt }
    else d
  | none => d

/-- Step 1 of `get_match_details` (src/sports_records.py:79-106): the live
page fills venue, match name, format, and the validated winner, in source
order. -/
def liveStage (team_parts : List Str) (page : Option LivePage) : Details :=
  match page with
  | none => initDetails
  | some lp => liveWinnerStep team_parts lp (liveNameStep lp (liveVenueStep lp initDetails))

/-- `re.sub(r"^<label>:?\s*", "", txt).strip()` under the guard that `txt`
starts with `label` (src/sports_records.py:133-140). -/
def stripLabel (lab t : Str) : Str :=
  let t1 := t.drop lab.length
  let t2 := match t1 with
    | ':' :: r => r
    | _ => t1
  pyStrip (t2.dropWhile isWS)

/-- One iteration of the officials loop (src/sports_records.py:129-140). -/
def procInfoRow (d : Details) (txt : Str) : Details :=
  if ("Umpires".data).isPrefixOf txt then
    let val := stripLabel "Umpires".data txt
    let names := ((pySplit ",".data val).map pyStrip).filter (fun n => !n.isEmpty)
    let d := if 1 ≤ names.length then { d with umpire_1 := some (names.getD 0 []) } else d
    if 2 ≤ names.length then { d with umpire_2 := some (names.getD 1 []) } else d
  else if ("3rd Umpire".data).isPrefixOf txt then
    { d with tv_umpire := some (stripLabel "3rd Umpire".data txt) }
  else if ("Referee".data).isPrefixOf txt then
    { d with match_referee := some (stripLabel "Referee".data txt) }
  else d

/-- The venue fallback of the facts page (src/sports_records.py:112-115):
only a falsy (`None` or empty) venue is filled. -/
def factsVenueStep (fp : FactsPage) (d : Details) : Details :=
  if pyTruthy d.venue then d else
    match fp.venueText with
    | some t => { d with venue := some (clean_text t) }
    | none => d

/-- The winner fallback of the facts page (src/sports_records.py:117-122):
only a falsy winner is filled, and only by validated result text. -/
def factsWinnerStep (team_parts : List Str) (fp : FactsPage) (d : Details) : Details :=
  if pyTruthy d.winner then d else
    match fp.resultText with
    | some rt =>
      let res := clean_text rt
      if team_parts.any (fun t => strContains t (pyLower res)) then
        { d with winner := some res }
      else d
    | none => d

/-- `details.update({... None})` at src/sports_records.py:125. -/
def resetOfficials (d : Details) : Details :=
  { d with umpire_1 := none, umpire_2 := none, tv_umpire := none, match_referee := none }

/-- Step 2 of `get_match_details` (src/sports_records.py:108-140): the facts
page fills venue and winner only when the dict still holds a falsy value
(`if not details[...]`), then resets and extracts the officials. -/
def factsStage (team_parts : List Str) (page : Option FactsPage) (d0 : Details) : Details :=
  match page with
  | none => d0
  | some fp =>
    fp.infoRows.foldl procInfoRow
      (resetOfficials (factsWinnerStep team_parts fp (factsVenueStep fp d0)))

/-- The lower-cased team parts of src/sports_records.py:77. -/
def teamParts (teams : Str) : List Str :=
  (pySplit " vs ".data teams).map (fun t => pyLower (pyStrip t))

/-- `SportsMatchScraper.get_match_details` (src/sports_records.py:74-142) as a
function of the two fetched pages (`none` = fetch failed). -/
def get_match_details (teams : Str) (live : Option LivePage) (facts : Option FactsPage) :
    Details :=
  factsStage (teamParts teams) facts (liveStage (teamParts teams) live)

/-- The `officials` sub-dict of an accepted match (src/sports_records.py:185-190). -/
structure Officials where
  umpire_1 : Option Str
  umpire_2 : Option Str
  tv_umpire : Option Str
  match_referee : Option Str
deriving DecidableEq

/-- One accepted match as appended by `scrape` (src/sports_records.py:178-191). -/
structure MatchRecord where
  match_id : Str
  teams : Str
  match_name : Str
  format : Str
  winner : Str
  venue : Str
  officials : Officials
deriving DecidableEq

/-- One discovered candidate link after the URL filtering of
src/sports_records.py:152-167: its extracted numeric id, the slug (the URL's
last path segment) and the two detail pages its URLs fetch. -/
structure MatchEnv where
  match_id : Str
  slug : Str
  live : Option LivePage
  facts : Option FactsPage
deriving DecidableEq

/-- The per-candidate body of the `scrape` loop (src/sports_records.py:168-191):
resolve the teams, fetch the details, drop the candidate when no validated
winner was resolved, otherwise build the record (with `or`-fallbacks for
match name and venue). -/
def processCandidate (e : MatchEnv) : Option MatchRecord :=
  let teams := extract_teams_from_slug e.slug
  let d := get_match_details teams e.live e.facts
  if pyTruthy d.winner then
    some { match_id := e.match_id, teams := teams,
           match_name := if pyTruthy d.match_name then d.match_name.getD [] else teams,
           format := d.format,
           winner := d.winner.getD [],
           venue := if pyTruthy d.venue then d.venue.getD [] else "Unknown".data,
           officials := { umpire_1 := d.umpire_1, umpire_2 := d.umpire_2,
                          tv_umpire := d.tv_umpire, match_referee := d.match_referee } }
  else none

/-- The `scrape` loop over the discovered candidates with its `seen_ids`
dedup set (src/sports_records.py:149-193): an id joins `seen_ids` before its
details are fetched, so a dropped candidate still shadows later duplicates. -/
def scrapeAux (seen : List Str) : List MatchEnv → List MatchRecord
  | [] => []
  | e :: rest =>
    if seen.contains e.match_id then scrapeAux seen rest
    else
      match processCandidate e with
      | some r => r :: scrapeAux (e.match_id :: seen) rest
      | none => scrapeAux (e.match_id :: seen) rest

/-- `SportsMatchScraper.scrape` (src/sports_records.py:144-193), starting from
an empty `seen_ids`; the HTML link discovery and URL keyword filtering are
abstracted as the already-filtered candidate list. -/
def scrape (envs : List MatchEnv) : List MatchRecord := scrapeAux [] envs

/-- A row of the `sports_match_records` table (src/sports_records.py:216-225). -/
structure SMRRow where
  match_id : Str
  teams : Str
  match_name : Str
  format : Str
  winner : Str
  venue : Str
deriving DecidableEq

/-- A row of the `match_officials` table (src/sports_records.py:227-236). -/
structure OffRow where
  match_id : Str
  umpire_1 : Option Str
  umpire_2 : Option Str
  tv_umpire : Option Str
  match_referee : Option Str
deriving DecidableEq

/-- A row of the `players` table (src/squads.py:41-53). -/
structure Player where
  player_id : Nat
  name : Str
  role : Option Str
  birth_date : Option Str
  birth_place : Option Str
  nickname : Option Str
  height : Option Str
  batting_style : Option Str
  bowling_style : Option Str
deriving DecidableEq

/-- A row of the `match_squads` table (src/squads.py:56-65): its only
uniqueness constraint is the `squad_id INTEGER PRIMARY KEY AUTOINCREMENT`;
the schema declares no uniqueness on `(match_id, player_id)`. -/
structure SquadRow where
  squad_id : Nat
  match_id : Str
  player_id : Nat
  team : Str
deriving DecidableEq

/-- The shared `cricbuzz.db` database: the two match-pipeline tables
(src/sports_records.py:214-236) and the two squad-pipeline tables
(src/squads.py:32-68), plus the sqlite autoincrement sequence backing
`match_squads.squad_id`. -/
structure CricbuzzDB where
  players : List Player
  match_squads : List SquadRow
  squadSeq : Nat
  sports_match_records : List SMRRow
  match_officials : List OffRow
deriving DecidableEq

/-- `SportsMatchRecords.save_matches` (src/sports_records.py:238-255): delete
both match tables, then insert one metadata row and one officials row per
accepted match. -/
def save_matches (db : CricbuzzDB) (ms : List MatchRecord) : CricbuzzDB :=
  { db with
    sports_match_records :=
      ms.map (fun m => ⟨m.match_id, m.teams, m.match_name, m.format, m.winner, m.venue⟩),
    match_officials :=
      ms.map (fun m => ⟨m.match_id, m.officials.umpire_1, m.officials.umpire_2,
                        m.officials.tv_umpire, m.officials.match_referee⟩) }

/-- `KNOWN_ROLES` (src/squads.py:18-30), in source order: longer matches first. -/
def KNOWN_ROLES : List Str := [
  "Batting Allrounder".data,
  "Bowling Allrounder".data,
  "WK-Batter".data,
  "Batter".data,
  "Bowler".data,
  "Head Coach".data,
  "Assistant coach".data,
  "Fielding Coach".data,
  "Batting Coach".data,
  "Bowling Coach".data,
  "Coach".data]

/-- `parse_name_role` (src/squads.py:89-109): strip the label, scan the role
vocabulary in order and take the first entry that is an exact
(case-sensitive) suffix; the name is the stripped remainder, or the whole
stripped label when no entry matches. -/
def parse_name_role (full_text : Str) : Str × Option Str :=
  let t := pyStrip full_text
  match KNOWN_ROLES.find? (fun role => role.isSuffixOf t) with
  | some role => (pyStrip (t.take (t.length - role.length)), some role)
  | none => (t, none)

example : parse_name_role "Kristian ClarkeBowler".data =
    ("Kristian Clarke".data, some "Bowler".data) := by decide

/-- `init_db` (src/squads.py:32-68): drop and recreate `players` and
`match_squads` (dropping the table also deletes its autoincrement sequence
row, so the sequence restarts at 1); the match pipeline's tables are not
touched. -/
def init_db (db : CricbuzzDB) : CricbuzzDB :=
  { db with players := [], match_squads := [], squadSeq := 1 }

/-- `INSERT OR IGNORE INTO match_squads` (src/squads.py:266-269): sqlite's
`OR IGNORE` suppresses exactly a uniqueness-constraint conflict, and the only
uniqueness the schema declares is the `squad_id` primary key, which the
autoincrement sequence keeps fresh. -/
def insertOrIgnoreSquad (db : CricbuzzDB) (mid : Str) (pid : Nat) (team : Str) : CricbuzzDB :=
  let row : SquadRow := ⟨db.squadSeq, mid, pid, team⟩
  if db.match_squads.any (fun r => r.squad_id == row.squad_id) then db
  else { db with match_squads := db.match_squads ++ [row], squadSeq := db.squadSeq + 1 }

/-- The six biography fields `fetch_player_profile` (src/squads.py:111-180)
extracts from a profile page; a failed fetch leaves all six `none`.  The
page-scanning heuristics run on fetched HTML, so the whole fetch is part of
the page environment: the enricher consumes its result. -/
structure Profile where
  birth_date : Option Str
  birth_place : Option Str
  nickname : Option Str
  height : Option Str
  batting_style : Option Str
  bowling_style : Option Str
deriving DecidableEq

/-- One `a[href*="/profiles/"]` anchor of a squad column: `profileId` is the
result of `re.search(r"/profiles/(\d+)/", href)` on its target and `text` its
display text (src/squads.py:218-234). -/
structure PlayerLink where
  profileId : Option Nat
  text : Str
deriving DecidableEq

/-- The in-place `UPDATE players SET name = ?, role = ?` (src/squads.py:260-263). -/
def updatePlayerNameRole (ps : List Player) (pid : Nat) (name : Str) (role : Option Str) :
    List Player :=
  ps.map (fun p => if p.player_id == pid then { p with name := name, role := role } else p)

/-- The running state of one squad column: the database, the log of player
ids whose profile page has been fetched so far in this run, and the column's
`count`. -/
structure ColState where
  db : CricbuzzDB
  fetched : List Nat
  count : Nat
deriving DecidableEq

/-- One iteration of the `process_col` link loop (src/squads.py:220-270): parse
name and role, extract the player id, and for a parsed id either insert a new
player with a freshly fetched profile or refresh only name and role, then
insert the squad row. -/
def processLink (profiles : Nat → Profile) (mid team : Str) (st : ColState)
    (lnk : PlayerLink) : ColState :=
  let full_text := pyStrip lnk.text
  let nr := parse_name_role full_text
  match lnk.profileId with
  | none => st
  | some pid =>
    if st.db.players.any (fun p => p.player_id == pid) then
      let db1 := { st.db with players := updatePlayerNameRole st.db.players pid nr.1 nr.2 }
      let db2 := insertOrIgnoreSquad db1 mid pid team
      { st with db := db2, count := st.count + 1 }
    else
      let prof := profiles pid
      let newP : Player := ⟨pid, nr.1, nr.2, prof.birth_date, prof.birth_place,
                            prof.nickname, prof.height, prof.batting_style, prof.bowling_style⟩
      let db1 := { st.db with players := st.db.players ++ [newP] }
      let db2 := insertOrIgnoreSquad db1 mid pid team
      { db := db2, fetched := st.fetched ++ [pid], count := st.count + 1 }

/-- `process_col` (src/squads.py:216-271): `for i, link in enumerate(links):
if i >= 11: break` processes exactly the first eleven links of the column. -/
def process_col (profiles : Nat → Profile) (mid team : Str) (db : CricbuzzDB)
    (fetched : List Nat) (links : List PlayerLink) : ColState :=
  (links.take 11).foldl (processLink profiles mid team) ⟨db, fetched, 0⟩

/-- `extract_teams_from_title`'s separator list (src/squads.py:76). -/
def TITLE_SEPARATORS : List Str := [
  ",".data, "Squads".data, "Scorecard".data, "Live".data, "Match".data,
  "1st".data, "2nd".data, "3rd".data, "4th".data, "5th".data,
  "T20I".data, "ODI".data, "Test".data]

/-- `extract_teams_from_title` (src/squads.py:70-87): split the title on
`" vs "`; the second team is bounded by the earliest-occurring separator. -/
def extract_teams_from_title (title : Str) : Str × Str :=
  if strContains " vs ".data title then
    let parts := pySplit " vs ".data title
    let team1 := pyStrip (parts.getD 0 [])
    let remainder := parts.getD 1 []
    let idx := TITLE_SEPARATORS.foldl (fun idx sep =>
      match pyFind sep remainder with
      | some i => if i < idx then i else idx
      | none => idx) remainder.length
    (team1, pyStrip (remainder.take idx))
  else ("Unknown A".data, "Unknown B".data)

example : extract_teams_from_title "India vs New Zealand, 1st T20I Squads".data =
    ("India".data, "New Zealand".data) := by decide

/-- One squads page of the `scrape_squads` loop (src/squads.py:191-214): the
match id, whether the fetch succeeded with status 200, the page title, and
the `/profiles/` anchors of each `div.w-1/2` column. -/
structure SquadPageEnv where
  match_id : Nat
  ok : Bool
  title : Str
  cols : List (List PlayerLink)
deriving DecidableEq

/-- The per-match body of `scrape_squads` (src/squads.py:191-279): a failed
fetch or a page with fewer than two columns is skipped; otherwise the first
two columns are processed with their team names. -/
def processMatchPage (profiles : Nat → Profile) (st : CricbuzzDB × List Nat)
    (e : SquadPageEnv) : CricbuzzDB × List Nat :=
  if !e.ok then st
  else
    let tn := extract_teams_from_title e.title
    let t1 := pyReplace "Cricket match squads | ".data [] tn.1
    let t2 := pyReplace "Cricket match squads | ".data [] tn.2
    if e.cols.length < 2 then st
    else
      let s1 := process_col profiles (natToStr e.match_id) t1 st.1 st.2 (e.cols.getD 0 [])
      let s2 := process_col profiles (natToStr e.match_id) t2 s1.db s1.fetched (e.cols.getD 1 [])
      (s2.db, s2.fetched)

/-- `scrape_squads` (src/squads.py:182-285): reset the squad tables via
`init_db`, then process each match page; the pair also returns the run's
profile-fetch log (which ids were fetched, in order). -/
def scrape_squads (profiles : Nat → Profile) (envs : List SquadPageEnv)
    (db0 : CricbuzzDB) : CricbuzzDB × List Nat :=
  envs.foldl (processMatchPage profiles) (init_db db0, [])

/-- Adjacent characters are never both whitespace. -/
def NoWSPair (a b : Char) : Prop := isWS a = false ∨ isWS b = false

theorem collapseAux_true_head (s : Str) :
    ∀ c, (collapseAux true s).head? = some c → isWS c = false := by
  induction s with
  | nil => intro c h; simp [collapseAux] at h
  | cons a as ih =>
    intro c h
    by_cases hw : isWS a
    · rw [collapseAux, if_pos hw, if_pos rfl] at h
      exact ih c h
    · rw [collapseAux, if_neg hw] at h
      simp only [List.head?_cons, Option.some.injEq] at h
      simpa [← h] using hw

theorem collapseAux_chain (s : Str) : ∀ b, List.Chain' NoWSPair (collapseAux b s) := by
  induction s with
  | nil => intro b; simp [collapseAux]
  | cons a as ih =>
    intro b
    by_cases hw : isWS a
    · cases b
      · rw [collapseAux, if_pos hw, if_neg (by simp)]
        refine List.chain'_cons'.mpr ⟨?_, ih true⟩
        intro y hy
        exact Or.inr (collapseAux_true_head as y hy)
      · rw [collapseAux, if_pos hw, if_pos rfl]
        exact ih true
    · rw [collapseAux, if_neg hw]
      refine List.chain'_cons'.mpr ⟨?_, ih false⟩
      intro y _
      exact Or.inl (by simpa using hw)

theorem head?_of_take {n : Nat} {l : Str} {c : Char} (h : (l.take n).head? = some c) :
    l.head? = some c := by
  cases n with
  | zero => simp at h
  | succ m => cases l with
    | nil => simp at h
    | cons a as => simpa using h

theorem head?_of_initialSegment {l₁ l₂ : Str} {c : Char} (hp : l₁ <+: l₂)
    (h : l₁.head? = some c) : l₂.head? = some c := by
  obtain ⟨t, rfl⟩ := hp
  cases l₁ with
  | nil => simp at h
  | cons a as => simpa using h

theorem head?_dropWhile_not_ws (l : Str) :
    ∀ c, (l.dropWhile isWS).head? = some c → isWS c = false := by
  induction l with
  | nil => intro c h; simp at h
  | cons a as ih =>
    intro c h
    by_cases hw : isWS a
    · rw [List.dropWhile_cons, if_pos hw] at h
      exact ih c h
    · rw [List.dropWhile_cons, if_neg hw] at h
      simp only [List.head?_cons, Option.some.injEq] at h
      simpa [← h] using hw

theorem pyStrip_head_not_ws (l : Str) :
    ∀ c, (pyStrip l).head? = some c → isWS c = false := by
  intro c h
  exact head?_dropWhile_not_ws l c
    (head?_of_initialSegment ( List.rdropWhile_prefix isWS (l.dropWhile isWS)) h)

theorem clean_text_take (s : Str) : clean_text s = (pyStrip (collapseWS s)).take 100 := by
  by_cases hs : s = []
  · subst hs
    simp [clean_text, collapseWS, collapseAux, pyStrip]
  · rw [clean_text, if_neg (by simpa using hs)]

/-- C8: the Text Normalizer `clean_text` returns the whitespace-collapsed,
trimmed input truncated to at most 100 characters: its output length never
exceeds 100, an input whose collapsed-and-trimmed form has at least 100
characters is cut to exactly 100, empty (or absent, which Python's falsy test
treats identically) input yields the empty string, no two adjacent output
characters are whitespace, and the output never starts with whitespace.  The
function is a total Lean function, hence pure and never failing. -/
theorem c8_text_normalizer (s : Str) :
    clean_text s = (pyStrip (collapseWS s)).take 100
    ∧ (clean_text s).length ≤ 100
    ∧ (100 ≤ (pyStrip (collapseWS s)).length → (clean_text s).length = 100)
    ∧ clean_text [] = []
    ∧ List.Chain' NoWSPair (clean_text s)
    ∧ (∀ c, (clean_text s).head? = some c → isWS c = false) := by
  refine ⟨clean_text_take s, ?_, ?_, by decide, ?_, ?_⟩
  · rw [clean_text_take, List.length_take]
    exact Nat.min_le_left _ _
  · intro hlen
    rw [clean_text_take, List.length_take]
    omega
  · rw [clean_text_take]
    have h1 := (collapseAux_chain s false).suffix (List.dropWhile_suffix isWS)
    have h2 := List.Chain'.prefix h1 ( List.rdropWhile_prefix isWS ((collapseWS s).dropWhile isWS))
    exact List.Chain'.prefix h2 ( List.take_prefix 100 (pyStrip (collapseWS s)))
  · intro c h
    rw [clean_text_take] at h
    exact pyStrip_head_not_ws _ c (head?_of_take h)

theorem find?_first {α : Type} (p : α → Bool) (r : α) (post : List α) :
    ∀ pre : List α, (∀ q ∈ pre, p q = false) → p r = true →
      (pre ++ r :: post).find? p = some r := by
  intro pre
  induction pre with
  | nil => intro _ hr; simp [List.find?_cons, hr]
  | cons a as ih =>
    intro h hr
    have ha : p a = false := h a (by simp)
    simp only [List.cons_append, List.find?_cons, ha, cond_false]
    exact ih (fun q hq => h q (by simp [hq])) hr

/-- C4: the Name/Role Splitter scans the ordered vocabulary linearly and the
first entry that is an exact suffix of the (stripped) label wins — the role is
that entry and the name the trimmed remainder; when no entry is a suffix the
whole label is the name and the role is null.  In particular
`"Ben StokesBatting Allrounder"` splits into `"Ben Stokes"` and
`"Batting Allrounder"`, not into a match of the later entries. -/
theorem c4_name_role_splitter_first_suffix_wins :
    (∀ label : Str, pyStrip label = label →
      ((∀ r ∈ KNOWN_ROLES, ¬ r <:+ label) → parse_name_role label = (label, none))
      ∧ (∀ pre r post, KNOWN_ROLES = pre ++ r :: post → r <:+ label →
          (∀ q ∈ pre, ¬ q <:+ label) →
          parse_name_role label =
            (pyStrip (label.take (label.length - r.length)), some r)))
    ∧ parse_name_role "Ben StokesBatting Allrounder".data =
        ("Ben Stokes".data, some "Batting Allrounder".data) := by
  refine ⟨?_, by decide⟩
  intro label hlab
  constructor
  · intro hnone
    have hfind : KNOWN_ROLES.find? (fun role => role.isSuffixOf label) = none := by
      rw [List.find?_eq_none]
      intro x hx
      simpa [List.isSuffixOf_iff_suffix] using hnone x hx
    simp [parse_name_role, hlab, hfind]
  · intro pre r post hsplit hsuf hpre
    have hfind : KNOWN_ROLES.find? (fun role => role.isSuffixOf label) = some r := by
      rw [hsplit]
      refine find?_first _ r post pre (fun q hq => ?_) ?_
      · rw [Bool.eq_false_iff]
        intro hq'
        exact hpre q hq (List.isSuffixOf_iff_suffix.mp hq')
      · simpa [List.isSuffixOf_iff_suffix] using hsuf
    simp [parse_name_role, hlab, hfind]

theorem strip_keeps_word_suffix (w : Str) (hw : w ≠ []) (hnw : ∀ c ∈ w, isWS c = false)
    (s : Str) : w <:+ pyStrip (s ++ w) := by
  have hzw : ∃ z, (s ++ w).dropWhile isWS = z ++ w := by
    rw [List.dropWhile_append]
    by_cases he : (s.dropWhile isWS).isEmpty
    · rw [if_pos he]
      refine ⟨[], ?_⟩
      cases w with
      | nil => simp
      | cons c cs =>
        rw [List.dropWhile_cons, if_neg (by simpa using hnw c (by simp))]
        simp
    · rw [if_neg he]
      exact ⟨_, rfl⟩
  obtain ⟨z, hz⟩ := hzw
  rw [pyStrip, hz]
  have hself : (z ++ w).rdropWhile isWS = z ++ w := by
    rw [List.rdropWhile_eq_self_iff]
    intro hl
    rw [List.getLast_append' z w hw]
    simpa using hnw _ (List.getLast_mem hw)
  rw [hself]
  exact List.suffix_append z w

theorem roles_not_suffix (t : Str)
    (hb : ("batter".data <:+ t) ∨ ("BATTER".data <:+ t)) :
    ∀ r ∈ KNOWN_ROLES, ¬ r <:+ t := by
  intro r hr hsuf
  rcases hb with hb | hb
  · rcases List.suffix_or_suffix_of_suffix hsuf hb with h | h
    · fin_cases hr <;> revert h <;> decide
    · fin_cases hr <;> revert h <;> decide
  · rcases List.suffix_or_suffix_of_suffix hsuf hb with h | h
    · fin_cases hr <;> revert h <;> decide
    · fin_cases hr <;> revert h <;> decide

theorem parse_name_role_no_match (u : Str)
    (h : ∀ r ∈ KNOWN_ROLES, ¬ r <:+ pyStrip u) :
    parse_name_role u = (pyStrip u, none) := by
  have hfind : KNOWN_ROLES.find? (fun role => role.isSuffixOf (pyStrip u)) = none := by
    rw [List.find?_eq_none]
    intro x hx
    rw [Bool.not_eq_true, Bool.eq_false_iff]
    intro hx'
    exact h x hx (List.isSuffixOf_iff_suffix.mp hx')
  simp [parse_name_role, hfind]

/-- C10: the Name/Role Splitter's suffix comparison is case-sensitive — a
label ending in `"BATTER"` or `"batter"` (instead of the vocabulary's
`"Batter"`) matches no vocabulary entry at all, so the role is null and the
whole (stripped) label is returned as the name. -/
theorem c10_role_suffix_case_sensitive :
    (∀ s : Str, parse_name_role (s ++ "BATTER".data) = (pyStrip (s ++ "BATTER".data), none))
    ∧ (∀ s : Str, parse_name_role (s ++ "batter".data) = (pyStrip (s ++ "batter".data), none))
    ∧ parse_name_role "Virat KohliBATTER".data = ("Virat KohliBATTER".data, none)
    ∧ parse_name_role "Virat Kohlibatter".data = ("Virat Kohlibatter".data, none) := by
  refine ⟨?_, ?_, by decide, by decide⟩
  · intro s
    exact parse_name_role_no_match _ (roles_not_suffix _
      (Or.inr (strip_keeps_word_suffix "BATTER".data (by decide) (by decide) s)))
  · intro s
    exact parse_name_role_no_match _ (roles_not_suffix _
      (Or.inl (strip_keeps_word_suffix "batter".data (by decide) (by decide) s)))

/-- C6: the Team Slug Resolver is total and always produces
`"<Team1> vs <Team2>"` — a slug with no `VS` token (after upper-casing, so the
test is case-insensitive) resolves to exactly `"Unknown vs Unknown"`; the
tokens adjacent to the first `VS` are looked up in the abbreviation table
(case-insensitively, since the slug is upper-cased first and the table's keys
are upper-case), an absent token falls back to its title-cased form, and a
missing neighbour (a `VS` that is first or last) leaves that side as the
literal `"Unknown"`. -/
theorem c6_slug_resolver :
    (∀ slug : Str, ("VS".data ∉ splitOnChar '-' (pyUpper slug)) →
        extract_teams_from_slug slug = "Unknown vs Unknown".data)
    ∧ (∀ slug : Str, ∃ t1 t2 : Str, extract_teams_from_slug slug = t1 ++ " vs ".data ++ t2)
    ∧ extract_teams_from_slug "ind-vs-nz-t20i".data = "India vs New Zealand".data
    ∧ extract_teams_from_slug "xyz-vs-aus".data = "Xyz vs Australia".data
    ∧ extract_teams_from_slug "vs-aus".data = "Unknown vs Australia".data
    ∧ extract_teams_from_slug "ind-vs".data = "India vs Unknown".data := by
  refine ⟨?_, ?_, by decide, by decide, by decide, by decide⟩
  · intro slug hmem
    have hfind : (splitOnChar '-' (pyUpper slug)).findIdx? (fun p => p == "VS".data) = none := by
      rw [List.findIdx?_eq_none_iff]
      intro x hx
      rw [Bool.eq_false_iff]
      intro hx'
      have hxe : x = "VS".data := by simpa using hx'
      exact hmem (hxe ▸ hx)
    simp [extract_teams_from_slug, hfind]
  · intro slug
    cases hfind : (splitOnChar '-' (pyUpper slug)).findIdx? (fun p => p == "VS".data) with
    | none =>
      exact ⟨"Unknown".data, "Unknown".data,
        by simp only [extract_teams_from_slug, hfind]; decide⟩
    | some idx =>
      exact ⟨_, _, by simp only [extract_teams_from_slug, hfind]; rfl⟩

/-- The four match-detail fields the facts-page officials loop never touches. -/
def coreFields (d : Details) : Option Str × Option Str × Option Str × Str :=
  (d.winner, d.venue, d.match_name, d.format)

theorem procInfoRow_core (d : Details) (txt : Str) :
    coreFields (procInfoRow d txt) = coreFields d := by
  unfold procInfoRow
  by_cases h1 : ("Umpires".data).isPrefixOf txt
  · simp only [h1, if_true]
    split_ifs <;> rfl
  · by_cases h2 : ("3rd Umpire".data).isPrefixOf txt
    · simp [h1, h2, coreFields]
    · by_cases h3 : ("Referee".data).isPrefixOf txt <;> simp [h1, h2, h3, coreFields]

theorem foldl_procInfoRow_core (rows : List Str) :
    ∀ d : Details, coreFields (rows.foldl procInfoRow d) = coreFields d := by
  induction rows with
  | nil => intro d; rfl
  | cons r rs ih =>
    intro d
    rw [List.foldl_cons, ih (procInfoRow d r), procInfoRow_core]

theorem factsVenueStep_core (fp : FactsPage) (d : Details) :
    (factsVenueStep fp d).winner = d.winner
    ∧ (factsVenueStep fp d).match_name = d.match_name
    ∧ (factsVenueStep fp d).format = d.format := by
  unfold factsVenueStep
  split_ifs
  · exact ⟨rfl, rfl, rfl⟩
  · cases fp.venueText <;> exact ⟨rfl, rfl, rfl⟩

theorem factsVenueStep_keeps (fp : FactsPage) (d : Details) (h : pyTruthy d.venue = true) :
    factsVenueStep fp d = d := by
  unfold factsVenueStep
  rw [if_pos h]

theorem factsWinnerStep_core (tp : List Str) (fp : FactsPage) (d : Details) :
    (factsWinnerStep tp fp d).venue = d.venue
    ∧ (factsWinnerStep tp fp d).match_name = d.match_name
    ∧ (factsWinnerStep tp fp d).format = d.format := by
  unfold factsWinnerStep
  split_ifs
  · exact ⟨rfl, rfl, rfl⟩
  · cases fp.resultText with
    | none => exact ⟨rfl, rfl, rfl⟩
    | some rt =>
      simp only
      split_ifs <;> exact ⟨rfl, rfl, rfl⟩

theorem factsWinnerStep_keeps (tp : List Str) (fp : FactsPage) (d : Details)
    (h : pyTruthy d.winner = true) : factsWinnerStep tp fp d = d := by
  unfold factsWinnerStep
  rw [if_pos h]

theorem factsWinnerStep_winner (tp : List Str) (fp : FactsPage) (d : Details) (w : Str)
    (h : (factsWinnerStep tp fp d).winner = some w) :
    d.winner = some w ∨ ∃ t ∈ tp, strContains t (pyLower w) = true := by
  unfold factsWinnerStep at h
  split_ifs at h
  · exact Or.inl h
  · cases hrt : fp.resultText with
    | none => rw [hrt] at h; exact Or.inl h
    | some rt =>
      rw [hrt] at h
      simp only at h
      split_ifs at h with hany
    
      · simp only [Option.some.injEq] at h
        obtain ⟨t, ht, hc⟩ := List.any_eq_true.mp hany
        exact Or.inr ⟨t, ht, h ▸ hc⟩
      · exact Or.inl h

theorem resetOfficials_core (d : Details) : coreFields (resetOfficials d) = coreFields d := rfl

theorem coreFields_winner {d₁ d₂ : Details} (h : coreFields d₁ = coreFields d₂) :
    d₁.winner = d₂.winner := congrArg Prod.fst h

theorem coreFields_venue {d₁ d₂ : Details} (h : coreFields d₁ = coreFields d₂) :
    d₁.venue = d₂.venue := congrArg (fun p => p.2.1) h

theorem coreFields_mname {d₁ d₂ : Details} (h : coreFields d₁ = coreFields d₂) :
    d₁.match_name = d₂.match_name := congrArg (fun p => p.2.2.1) h

theorem coreFields_format {d₁ d₂ : Details} (h : coreFields d₁ = coreFields d₂) :
    d₁.format = d₂.format := congrArg (fun p => p.2.2.2) h

theorem factsStage_fields (tp : List Str) (fp : FactsPage) (d : Details) :
    (factsStage tp (some fp) d).winner = (factsWinnerStep tp fp (factsVenueStep fp d)).winner
    ∧ (factsStage tp (some fp) d).venue = (factsVenueStep fp d).venue
    ∧ (factsStage tp (some fp) d).match_name = d.match_name
    ∧ (factsStage tp (some fp) d).format = d.format := by
  have hf := foldl_procInfoRow_core fp.infoRows
    (resetOfficials (factsWinnerStep tp fp (factsVenueStep fp d)))
  refine ⟨?_, ?_, ?_, ?_⟩
  · exact (coreFields_winner hf).trans rfl
  · exact (coreFields_venue hf).trans ((factsWinnerStep_core tp fp _).1)
  · exact (coreFields_mname hf).trans
      (((factsWinnerStep_core tp fp _).2.1).trans (factsVenueStep_core fp d).2.1)
  · exact (coreFields_format hf).trans
      (((factsWinnerStep_core tp fp _).2.2).trans (factsVenueStep_core fp d).2.2)

/-- The whitespace-only venue anchor text of the miscounting live page. -/
def c5Live : LivePage := { venueText := some "   ".data, h1Text := none, winnerText := none }

/-- The facts page carrying a real venue anchor. -/
def c5Facts : FactsPage := { venueText := some "Eden Gardens".data, resultText := none, infoRows := [] }

/-- C5 counterexample: the merge across the two page visits is not
first-non-NULL-wins.  A live page whose venue anchor text is whitespace-only
populates `venue` with the (non-null) empty string, and the later facts page
overwrites it: the code tests Python falsiness (`if not details["venue"]`),
not null-ness. -/
theorem c5_counterexample :
    (get_match_details "India vs New Zealand".data (some c5Live) none).venue = some []
    ∧ (get_match_details "India vs New Zealand".data (some c5Live) (some c5Facts)).venue
        = some "Eden Gardens".data
    ∧ some ([] : Str) ≠ some "Eden Gardens".data := by decide

/-- C5 (amended): the merge across the two page visits is
first-non-falsy-wins: a field holding a truthy (non-null, non-empty) value
from the live page is never overwritten by the facts page — the facts page
only fills fields that are still `None` or the empty string — and the facts
page never touches the match name or the format.  (`get_match_details` is
exactly the facts stage applied after the live stage.) -/
theorem c5_first_truthy_wins (tp : List Str) (facts : Option FactsPage) (d : Details) :
    (pyTruthy d.venue = true → (factsStage tp facts d).venue = d.venue)
    ∧ (pyTruthy d.winner = true → (factsStage tp facts d).winner = d.winner)
    ∧ (factsStage tp facts d).match_name = d.match_name
    ∧ (factsStage tp facts d).format = d.format
    ∧ (∀ teams live fa, get_match_details teams live fa =
        factsStage (teamParts teams) fa (liveStage (teamParts teams) live)) := by
  cases facts with
  | none => exact ⟨fun _ => rfl, fun _ => rfl, rfl, rfl, fun _ _ _ => rfl⟩
  | some fp =>
    refine ⟨?_, ?_, (factsStage_fields tp fp d).2.2.1, (factsStage_fields tp fp d).2.2.2,
      fun _ _ _ => rfl⟩
    · intro h
      rw [(factsStage_fields tp fp d).2.1, factsVenueStep_keeps fp d h]
    · intro h
      have hv : (factsVenueStep fp d).winner = d.winner := (factsVenueStep_core fp d).1
      rw [(factsStage_fields tp fp d).1,
        factsWinnerStep_keeps tp fp (factsVenueStep fp d) (by rw [hv]; exact h), hv]

theorem liveVenueStep_winner (lp : LivePage) (d : Details) :
    (liveVenueStep lp d).winner = d.winner := by
  unfold liveVenueStep
  cases lp.venueText <;> rfl

theorem liveNameStep_winner (lp : LivePage) (d : Details) :
    (liveNameStep lp d).winner = d.winner := by
  unfold liveNameStep
  cases lp.h1Text <;> rfl

theorem liveWinnerStep_winner (tp : List Str) (lp : LivePage) (d : Details) (w : Str)
    (hd : d.winner = none) (h : (liveWinnerStep tp lp d).winner = some w) :
    ∃ t ∈ tp, strContains t (pyLower w) = true := by
  unfold liveWinnerStep at h
  cases hwt : lp.winnerText with
  | none => rw [hwt] at h; exact absurd (hd ▸ h) (by simp)
  | some wt =>
    rw [hwt] at h
    simp only at h
    split_ifs at h with hany
    · simp only [Option.some.injEq] at h
      obtain ⟨t, ht, hc⟩ := List.any_eq_true.mp hany
      exact ⟨t, ht, h ▸ hc⟩
    · exact absurd (hd ▸ h) (by simp)

theorem liveStage_winner (tp : List Str) (page : Option LivePage) (w : Str)
    (h : (liveStage tp page).winner = some w) :
    ∃ t ∈ tp, strContains t (pyLower w) = true := by
  cases page with
  | none => exact absurd h (by simp [liveStage, initDetails])
  | some lp =>
    refine liveWinnerStep_winner tp lp _ w ?_ h
    rw [liveNameStep_winner, liveVenueStep_winner]
    rfl

theorem get_match_details_winner (teams : Str) (live : Option LivePage)
    (facts : Option FactsPage) (w : Str)
    (h : (get_match_details teams live facts).winner = some w) :
    ∃ t ∈ teamParts teams, strContains t (pyLower w) = true := by
  cases facts with
  | none => exact liveStage_winner _ live w h
  | some fp =>
    have h1 := (factsStage_fields (teamParts teams) fp
      (liveStage (teamParts teams) live)).1
    rw [show get_match_details teams live (some fp)
        = factsStage (teamParts teams) (some fp) (liveStage (teamParts teams) live) from rfl,
      h1] at h
    rcases factsWinnerStep_winner _ fp _ w h with hprev | hok
    · rw [(factsVenueStep_core fp _).1] at hprev
      exact liveStage_winner _ live w hprev
    · exact hok

theorem winner_getD_props (teams : Str) (live : Option LivePage) (facts : Option FactsPage)
    (hw : pyTruthy (get_match_details teams live facts).winner = true) :
    (get_match_details teams live facts).winner.getD [] ≠ []
    ∧ ∃ t ∈ teamParts teams,
        strContains t (pyLower ((get_match_details teams live facts).winner.getD [])) = true := by
  cases hwv : (get_match_details teams live facts).winner with
  | none => rw [hwv] at hw; simp [pyTruthy] at hw
  | some w =>
    rw [hwv] at hw
    have hne : w ≠ [] := by simpa [pyTruthy] using hw
    refine ⟨by simpa using hne, ?_⟩
    simpa using get_match_details_winner teams live facts w hwv

theorem processCandidate_some (e : MatchEnv) (r : MatchRecord)
    (h : processCandidate e = some r) :
    r.winner ≠ []
    ∧ r.teams = extract_teams_from_slug e.slug
    ∧ ∃ t ∈ teamParts r.teams, strContains t (pyLower r.winner) = true := by
  unfold processCandidate at h
  simp only at h
  split_ifs at h with hw
  all_goals first
    | exact Option.noConfusion h
    | (rw [Option.some_inj] at h
       subst h
       exact ⟨(winner_getD_props _ e.live e.facts hw).1, rfl,
              (winner_getD_props _ e.live e.facts hw).2⟩)

theorem scrapeAux_mem (envs : List MatchEnv) :
    ∀ seen : List Str, ∀ r ∈ scrapeAux seen envs, ∃ e, processCandidate e = some r := by
  induction envs with
  | nil => intro seen r h; simp [scrapeAux] at h
  | cons e rest ih =>
    intro seen r h
    rw [scrapeAux] at h
    split_ifs at h with hseen
    · exact ih seen r h
    · cases hpc : processCandidate e with
      | some r' =>
        rw [hpc] at h
        rcases List.mem_cons.mp h with rfl | hmem
        · exact ⟨e, hpc⟩
        · exact ih _ r hmem
      | none =>
        rw [hpc] at h
        exact ih _ r h

/-- C1: a match candidate is appended to the scraper's output (and hence
persisted by `save_matches`) only with a resolved, validated winner: every
accepted record's winner is non-empty and case-insensitively contains at
least one of the two team names split out of its `teams` string; a candidate
whose winner is still null after both pages yields no record at all, and
persistence writes exactly one metadata row and one officials row per
accepted record — never a partial row for a dropped candidate. -/
theorem c1_accepted_winner_validated :
    (∀ envs : List MatchEnv, ∀ r ∈ scrape envs,
        r.winner ≠ []
        ∧ ∃ t ∈ teamParts r.teams, strContains t (pyLower r.winner) = true)
    ∧ (∀ e : MatchEnv,
        (get_match_details (extract_teams_from_slug e.slug) e.live e.facts).winner = none
          → processCandidate e = none)
    ∧ (∀ db ms, ∀ row ∈ (save_matches db ms).sports_match_records,
        ∃ m ∈ ms, row.winner = m.winner ∧ row.teams = m.teams)
    ∧ (∀ db ms, (save_matches db ms).sports_match_records.length = ms.length
        ∧ (save_matches db ms).match_officials.length = ms.length) := by
  refine ⟨?_, ?_, ?_, ?_⟩
  · intro envs r hr
    obtain ⟨e, he⟩ := scrapeAux_mem envs [] r hr
    obtain ⟨h1, _, h3⟩ := processCandidate_some e r he
    exact ⟨h1, h3⟩
  · intro e h
    simp [processCandidate, h, pyTruthy]
  · intro db ms row hrow
    obtain ⟨m, hm, rfl⟩ := List.mem_map.mp hrow
    exact ⟨m, hm, rfl, rfl⟩
  · intro db ms
    constructor <;> simp [save_matches]

theorem insertOrIgnoreSquad_frame (db : CricbuzzDB) (mid : Str) (pid : Nat) (team : Str) :
    (insertOrIgnoreSquad db mid pid team).sports_match_records = db.sports_match_records
    ∧ (insertOrIgnoreSquad db mid pid team).match_officials = db.match_officials := by
  unfold insertOrIgnoreSquad
  dsimp only
  split_ifs <;> exact ⟨rfl, rfl⟩

theorem processLink_frame (profiles : Nat → Profile) (mid team : Str) (st : ColState)
    (lnk : PlayerLink) :
    (processLink profiles mid team st lnk).db.sports_match_records
        = st.db.sports_match_records
    ∧ (processLink profiles mid team st lnk).db.match_officials
        = st.db.match_officials := by
  unfold processLink
  cases lnk.profileId with
  | none => exact ⟨rfl, rfl⟩
  | some pid =>
    simp only
    split_ifs
    · exact ⟨(insertOrIgnoreSquad_frame _ _ _ _).1, (insertOrIgnoreSquad_frame _ _ _ _).2⟩
    · exact ⟨(insertOrIgnoreSquad_frame _ _ _ _).1, (insertOrIgnoreSquad_frame _ _ _ _).2⟩

theorem foldl_processLink_frame (profiles : Nat → Profile) (mid team : Str)
    (links : List PlayerLink) :
    ∀ st : ColState,
      (links.foldl (processLink profiles mid team) st).db.sports_match_records
          = st.db.sports_match_records
      ∧ (links.foldl (processLink profiles mid team) st).db.match_officials
          = st.db.match_officials := by
  induction links with
  | nil => intro st; exact ⟨rfl, rfl⟩
  | cons l ls ih =>
    intro st
    rw [List.foldl_cons]
    exact ⟨(ih _).1.trans (processLink_frame profiles mid team st l).1,
           (ih _).2.trans (processLink_frame profiles mid team st l).2⟩

theorem process_col_frame (profiles : Nat → Profile) (mid team : Str) (db : CricbuzzDB)
    (fetched : List Nat) (links : List PlayerLink) :
    (process_col profiles mid team db fetched links).db.sports_match_records
        = db.sports_match_records
    ∧ (process_col profiles mid team db fetched links).db.match_officials
        = db.match_officials :=
  foldl_processLink_frame profiles mid team (links.take 11) ⟨db, fetched, 0⟩

theorem processMatchPage_frame (profiles : Nat → Profile) (st : CricbuzzDB × List Nat)
    (e : SquadPageEnv) :
    (processMatchPage profiles st e).1.sports_match_records = st.1.sports_match_records
    ∧ (processMatchPage profiles st e).1.match_officials = st.1.match_officials := by
  unfold processMatchPage
  split_ifs
  · exact ⟨rfl, rfl⟩
  · exact ⟨rfl, rfl⟩
  · exact ⟨(process_col_frame _ _ _ _ _ _).1.trans (process_col_frame _ _ _ _ _ _).1,
           (process_col_frame _ _ _ _ _ _).2.trans (process_col_frame _ _ _ _ _ _).2⟩

theorem foldl_processMatchPage_frame (profiles : Nat → Profile) (envs : List SquadPageEnv) :
    ∀ st : CricbuzzDB × List Nat,
      (envs.foldl (processMatchPage profiles) st).1.sports_match_records
          = st.1.sports_match_records
      ∧ (envs.foldl (processMatchPage profiles) st).1.match_officials
          = st.1.match_officials := by
  induction envs with
  | nil => intro st; exact ⟨rfl, rfl⟩
  | cons e es ih =>
    intro st
    rw [List.foldl_cons]
    exact ⟨(ih _).1.trans (processMatchPage_frame profiles st e).1,
           (ih _).2.trans (processMatchPage_frame profiles st e).2⟩

/-- C9: every invocation of the squad-enrichment pipeline starts by dropping
and recreating `players` and `match_squads`: after `init_db` both tables are
empty (and the autoincrement sequence restarts), previous rows can never
influence the run (running from `db` equals running from `init_db db`), while
the match pipeline's tables `sports_match_records` and `match_officials` are
untouched by the reset and by the whole squad run. -/
theorem c9_init_db_resets_only_squad_tables (db : CricbuzzDB) (profiles : Nat → Profile)
    (envs : List SquadPageEnv) :
    (init_db db).players = []
    ∧ (init_db db).match_squads = []
    ∧ (init_db db).squadSeq = 1
    ∧ (init_db db).sports_match_records = db.sports_match_records
    ∧ (init_db db).match_officials = db.match_officials
    ∧ scrape_squads profiles envs db = scrape_squads profiles envs (init_db db)
    ∧ (scrape_squads profiles envs db).1.sports_match_records = db.sports_match_records
    ∧ (scrape_squads profiles envs db).1.match_officials = db.match_officials := by
  refine ⟨rfl, rfl, rfl, rfl, rfl, rfl, ?_, ?_⟩
  · exact (foldl_processMatchPage_frame profiles envs (init_db db, [])).1
  · exact (foldl_processMatchPage_frame profiles envs (init_db db, [])).2

/-- The sqlite invariant backing `match_squads`: the autoincrement sequence is
larger than every stored `squad_id` (sqlite guarantees this for an
`INTEGER PRIMARY KEY AUTOINCREMENT` column). -/
def seqFresh (db : CricbuzzDB) : Prop := ∀ r ∈ db.match_squads, r.squad_id < db.squadSeq

theorem insertOrIgnoreSquad_fresh (db : CricbuzzDB) (mid : Str) (pid : Nat) (team : Str)
    (h : seqFresh db) :
    (insertOrIgnoreSquad db mid pid team).match_squads
        = db.match_squads ++ [⟨db.squadSeq, mid, pid, team⟩]
    ∧ seqFresh (insertOrIgnoreSquad db mid pid team) := by
  have hany : (db.match_squads.any fun r => r.squad_id == db.squadSeq) = false := by
    rw [List.any_eq_false]
    intro r hr
    have := h r hr
    simp only [beq_iff_eq]
    omega
  unfold insertOrIgnoreSquad
  dsimp only
  rw [if_neg (by simp [hany])]
  refine ⟨rfl, ?_⟩
  intro r hr
  simp only [List.mem_append, List.mem_singleton] at hr
  rcases hr with hr | rfl
  · have := h r hr
    simp only
    omega
  · simp

theorem insertOrIgnoreSquad_count (db : CricbuzzDB) (mid : Str) (pid : Nat) (team : Str)
    (h : seqFresh db) :
    (insertOrIgnoreSquad db mid pid team).match_squads.length = db.match_squads.length + 1
    ∧ seqFresh (insertOrIgnoreSquad db mid pid team)
    ∧ ∀ r ∈ (insertOrIgnoreSquad db mid pid team).match_squads,
        r ∈ db.match_squads ∨ (r.match_id = mid ∧ r.team = team) := by
  obtain ⟨he, hf⟩ := insertOrIgnoreSquad_fresh db mid pid team h
  refine ⟨by rw [he]; simp, hf, ?_⟩
  intro r hr
  rw [he] at hr
  simp only [List.mem_append, List.mem_singleton] at hr
  rcases hr with hr | rfl
  · exact Or.inl hr
  · exact Or.inr ⟨rfl, rfl⟩

theorem processLink_count (profiles : Nat → Profile) (mid team : Str) (st : ColState)
    (lnk : PlayerLink) (h : seqFresh st.db) :
    (processLink profiles mid team st lnk).db.match_squads.length
        = st.db.match_squads.length + (if lnk.profileId.isSome then 1 else 0)
    ∧ seqFresh (processLink profiles mid team st lnk).db
    ∧ (∀ r ∈ (processLink profiles mid team st lnk).db.match_squads,
        r ∈ st.db.match_squads ∨ (r.match_id = mid ∧ r.team = team)) := by
  unfold processLink
  cases hid : lnk.profileId with
  | none =>
    refine ⟨by simp, h, fun r hr => Or.inl hr⟩
  | some pid =>
    simp only [Option.isSome_some, if_true]
    split_ifs with hex
    · exact insertOrIgnoreSquad_count _ mid pid team h
    · exact insertOrIgnoreSquad_count _ mid pid team h

theorem foldl_processLink_count (profiles : Nat → Profile) (mid team : Str)
    (links : List PlayerLink) :
    ∀ st : ColState, seqFresh st.db →
      (links.foldl (processLink profiles mid team) st).db.match_squads.length
          = st.db.match_squads.length + links.countP (fun l => l.profileId.isSome)
      ∧ seqFresh (links.foldl (processLink profiles mid team) st).db
      ∧ (∀ r ∈ (links.foldl (processLink profiles mid team) st).db.match_squads,
          r ∈ st.db.match_squads ∨ (r.match_id = mid ∧ r.team = team)) := by
  induction links with
  | nil => intro st h; exact ⟨by simp, h, fun r hr => Or.inl hr⟩
  | cons l ls ih =>
    intro st h
    rw [List.foldl_cons]
    obtain ⟨e1, f1, m1⟩ := processLink_count profiles mid team st l h
    obtain ⟨e2, f2, m2⟩ := ih _ f1
    refine ⟨?_, f2, ?_⟩
    · rw [e2, e1, List.countP_cons]
      cases hp : l.profileId.isSome <;> simp [hp] <;> omega
    · intro r hr
      rcases m2 r hr with hr' | hmt
      · exact m1 r hr'
      · exact Or.inr hmt

/-- C7: a squad column contributes at most eleven `match_squads` rows no
matter how many player-profile links it contains; when every link carries a
parseable player id the column contributes exactly `min 11 n` rows (so a
column of fourteen links contributes exactly eleven), and every contributed
row carries the column's match id and team. -/
theorem c7_eleven_player_cap (profiles : Nat → Profile) (mid team : Str) (db : CricbuzzDB)
    (fetched : List Nat) (links : List PlayerLink) (h : seqFresh db) :
    (process_col profiles mid team db fetched links).db.match_squads.length
        ≤ db.match_squads.length + 11
    ∧ ((∀ l ∈ links, l.profileId.isSome = true) →
        (process_col profiles mid team db fetched links).db.match_squads.length
          = db.match_squads.length + min 11 links.length)
    ∧ (∀ r ∈ (process_col profiles mid team db fetched links).db.match_squads,
        r ∈ db.match_squads ∨ (r.match_id = mid ∧ r.team = team)) := by
  obtain ⟨e, _, m⟩ := foldl_processLink_count profiles mid team (links.take 11) ⟨db, fetched, 0⟩ h
  dsimp only at e
  refine ⟨?_, ?_, m⟩
  · unfold process_col
    rw [e]
    have h1 : (links.take 11).countP (fun l : PlayerLink => l.profileId.isSome)
        ≤ (links.take 11).length := List.countP_le_length _
    have h2 : (links.take 11).length ≤ 11 := by
      rw [List.length_take]
      exact Nat.min_le_left _ _
    omega
  · intro hall
    unfold process_col
    rw [e]
    congr 1
    rw [List.countP_eq_length.mpr, List.length_take]
    intro a ha
    exact hall a (List.mem_of_mem_take ha)

/-- The trivial profile environment: every fetch yields no biography fields. -/
def noProfile : Nat → Profile := fun _ => ⟨none, none, none, none, none, none⟩

/-- A freshly created `cricbuzz.db` with all four tables empty. -/
def emptyDB : CricbuzzDB := ⟨[], [], 1, [], []⟩

/-- A squad column holding fourteen player-profile links with ids 1..14. -/
def fourteenLinks : List PlayerLink :=
  (List.range 14).map (fun i => ⟨some (i + 1), "PBatter".data⟩)

/-- C7 witness: a column of fourteen player links contributes exactly eleven
squad rows. -/
theorem c7_eleven_player_cap_witness :
    seqFresh emptyDB
    ∧ (∀ l ∈ fourteenLinks, l.profileId.isSome = true)
    ∧ (process_col noProfile "116441".data "India".data emptyDB []
        fourteenLinks).db.match_squads.length
      = emptyDB.match_squads.length + min 11 fourteenLinks.length :=
  ⟨fun r hr => absurd hr (List.not_mem_nil r), by decide,
   (c7_eleven_player_cap noProfile "116441".data "India".data emptyDB [] fourteenLinks
      (fun r hr => absurd hr (List.not_mem_nil r))).2.1 (by decide)⟩

example : (process_col noProfile "116441".data "India".data emptyDB []
    fourteenLinks).db.match_squads.length = 11 := by decide

/-- A squad column link carrying player id 1. -/
def dupLink : PlayerLink := ⟨some 1, "Kristian ClarkeBowler".data⟩

/-- C2: re-inserting an existing (match_id, player_id) pair is NOT a no-op —
`match_squads` declares no uniqueness constraint on (match_id, player_id)
(only the autoincrement `squad_id` primary key), so `INSERT OR IGNORE` never
ignores anything and a column listing the same player twice stores two rows
with the same (match_id, player_id) pair. -/
theorem c2_duplicate_pair_not_ignored :
    ((process_col noProfile "116441".data "India".data emptyDB []
        [dupLink, dupLink]).db.match_squads.map (fun r => (r.match_id, r.player_id)))
      = [("116441".data, 1), ("116441".data, 1)] := by decide

theorem insertOrIgnoreSquad_players (db : CricbuzzDB) (mid : Str) (pid : Nat) (team : Str) :
    (insertOrIgnoreSquad db mid pid team).players = db.players := by
  unfold insertOrIgnoreSquad
  dsimp only
  split_ifs <;> rfl

theorem updatePlayerNameRole_spec (ps : List Player) (pid : Nat) (nm : Str) (rl : Option Str) :
    ∀ q ∈ updatePlayerNameRole ps pid nm rl,
      ∃ q0 ∈ ps, q0.player_id = q.player_id
        ∧ q.birth_date = q0.birth_date ∧ q.birth_place = q0.birth_place
        ∧ q.nickname = q0.nickname ∧ q.height = q0.height
        ∧ q.batting_style = q0.batting_style ∧ q.bowling_style = q0.bowling_style
        ∧ (q.player_id = pid → q.name = nm ∧ q.role = rl) := by
  intro q hq
  obtain ⟨q0, hq0, heq⟩ := List.mem_map.mp hq
  by_cases hb : q0.player_id = pid
  · rw [if_pos (by simpa using hb)] at heq
    refine ⟨q0, hq0, ?_⟩
    rw [← heq]
    exact ⟨rfl, rfl, rfl, rfl, rfl, rfl, rfl, fun _ => ⟨rfl, rfl⟩⟩
  · rw [if_neg (by simpa using hb)] at heq
    refine ⟨q0, hq0, ?_⟩
    rw [← heq]
    exact ⟨rfl, rfl, rfl, rfl, rfl, rfl, rfl, fun hp => absurd hp hb⟩

/-- C3 (amended): within one run, a sighting of a player id that already
exists in `players` fetches no profile (the fetch log is untouched) and
refreshes exactly `name` and `role`: every biography field keeps the value it
had before the sighting.  (Across whole runs the claim fails: `scrape_squads`
begins with `init_db`, which drops the `players` table, so a second run
re-fetches every profile — see the counterexample.) -/
theorem c3_within_run_no_refetch (profiles : Nat → Profile) (mid team : Str) (st : ColState)
    (lnk : PlayerLink) (pid : Nat)
    (hid : lnk.profileId = some pid)
    (hex : (st.db.players.any (fun p => p.player_id == pid)) = true) :
    (processLink profiles mid team st lnk).fetched = st.fetched
    ∧ (processLink profiles mid team st lnk).db.players
        = updatePlayerNameRole st.db.players pid
            (parse_name_role (pyStrip lnk.text)).1 (parse_name_role (pyStrip lnk.text)).2
    ∧ (∀ q ∈ (processLink profiles mid team st lnk).db.players,
        ∃ q0 ∈ st.db.players, q0.player_id = q.player_id
          ∧ q.birth_date = q0.birth_date ∧ q.birth_place = q0.birth_place
          ∧ q.nickname = q0.nickname ∧ q.height = q0.height
          ∧ q.batting_style = q0.batting_style ∧ q.bowling_style = q0.bowling_style
          ∧ (q.player_id = pid →
              q.name = (parse_name_role (pyStrip lnk.text)).1
              ∧ q.role = (parse_name_role (pyStrip lnk.text)).2)) := by
  unfold processLink
  rw [hid]
  dsimp only
  rw [if_pos hex]
  refine ⟨rfl, ?_, ?_⟩
  · exact insertOrIgnoreSquad_players _ mid pid team
  · intro q hq
    rw [insertOrIgnoreSquad_players _ mid pid team] at hq
    exact updatePlayerNameRole_spec st.db.players pid _ _ q hq

/-- The squad link whose display text concatenates name and role. -/
def benLink : PlayerLink := ⟨some 7, "Ben StokesBatting Allrounder".data⟩

/-- The one squads page of the counterexample run: a successful fetch whose
first column holds one player link and whose second column is empty. -/
def squadEnv1 : SquadPageEnv := ⟨116441, true, [], [[benLink], []]⟩

/-- The profile environment of the first run. -/
def profileA : Nat → Profile := fun _ => ⟨some "1 Jan 1990".data, none, none, none, none, none⟩

/-- The profile environment of the second run (the site changed in between). -/
def profileB : Nat → Profile := fun _ => ⟨some "2 Feb 1992".data, none, none, none, none, none⟩

/-- C3 counterexample: running the squad pipeline a second time over the same
match/player set re-fetches the already-enriched player's profile (the second
run's fetch log is `[7]`, not empty) and overwrites the biography: the
player's `birth_date` after run two is what the second fetch returned, not
what run one stored — because every invocation starts by dropping the
`players` table. -/
theorem c3_counterexample :
    ((scrape_squads profileA [squadEnv1] emptyDB).1.players.map Player.birth_date
        = [some "1 Jan 1990".data])
    ∧ ((scrape_squads profileB [squadEnv1]
          (scrape_squads profileA [squadEnv1] emptyDB).1).1.players.map Player.birth_date
        = [some "2 Feb 1992".data])
    ∧ (scrape_squads profileB [squadEnv1]
          (scrape_squads profileA [squadEnv1] emptyDB).1).2 = [7] := by decide

/-- The column state of the witness: player 7 was already enriched in this run. -/
def c3St : ColState :=
  ⟨{ emptyDB with players := [⟨7, "Ben Stokes".data, none, some "1 Jan 1990".data,
      none, none, none, none, none⟩] }, [], 0⟩

/-- C3 witness: a second sighting of the already-stored player 7 fetches
nothing. -/
theorem c3_within_run_no_refetch_witness :
    (processLink noProfile "116441".data "India".data c3St benLink).fetched = c3St.fetched :=
  (c3_within_run_no_refetch noProfile "116441".data "India".data c3St benLink 7
    rfl (by decide)).1
